import Mathlib

/-!
Verification development for the LAIS Vegas poker client.

The embedding covers the three Python source files of the repository:
- namespace `LaisVegas.LV`  : examples/python/lais_vegas.py (the SDK the bot uses:
  `Card`, `HandState`, `call_amount`, `solve_pow`, `_trigger`)
- namespace `LaisVegas.Bot` : examples/python/simple_bot.py (`RANK_VALUES`,
  `evaluate_preflop`, `decide_action`)
- namespace `LaisVegas.SDK` : public/sdk/lais_vegas.py (the quickstart client and
  its `hand:start` / `phase` event handlers)

Python integers are embedded as `Int` (they are unbounded), Python `//` as
`Int.fdiv` (floor division), Python strings as `String`. The single call to
`random.random()` that any one execution path of `decide_action` makes is
passed in explicitly as a rational parameter `r`; the float thresholds
`0.1`, `0.05`, `0.5`, `0.3`, `0.2`, `0.4` of the source are embedded as the
exact rationals they denote (no theorem below depends on a borderline input
where binary floating point would round differently).
-/

namespace LaisVegas

namespace LV

/-- Card dataclass of examples/python/lais_vegas.py: `suit` and `rank` are
strings; the hidden card produced by `parse_cards` is `Card("?", "?")`. -/
structure Card where
  suit : String
  rank : String
deriving DecidableEq

/-- Suit-to-symbol dict used by `Card.__str__`, with the suit itself as the
`.get` default. -/
def suitSymbol (s : String) : String :=
  if s = "hearts" then "♥"
  else if s = "diamonds" then "♦"
  else if s = "clubs" then "♣"
  else if s = "spades" then "♠"
  else s

/-- Rendering `Card.__str__`: rank followed by the suit symbol. -/
def cardStr (c : Card) : String := c.rank ++ suitSymbol c.suit

/-- Fields of the per-player dicts that `parse_hand_state` reads; the core
treats the records as otherwise opaque. -/
structure PlayerRec where
  agent_id : String
  bet : Int
  chips : Int
  is_folded : Bool
deriving DecidableEq

/-- HandState dataclass of examples/python/lais_vegas.py. -/
structure HandState where
  phase : String
  pot : Int
  community_cards : List Card
  your_cards : List Card
  your_bet : Int
  current_bet : Int
  your_chips : Int
  is_your_turn : Bool
  active_players : Int
  players : List PlayerRec

/-- The `call_amount` property of `HandState` (lines 68-70): it is a computed
property, recomputed from `current_bet` and `your_bet` on each access and
never stored in a field. -/
def HandState.call_amount (s : HandState) : Int := max 0 (s.current_bet - s.your_bet)

end LV

namespace Bot

/-- RANK_VALUES dict of simple_bot.py, embedded as the `.get(rank, 0)` lookup
the source performs (missing keys, in particular the hidden rank `"?"`,
give 0). -/
def RANK_VALUES (r : String) : Nat :=
  if r = "2" then 2
  else if r = "3" then 3
  else if r = "4" then 4
  else if r = "5" then 5
  else if r = "6" then 6
  else if r = "7" then 7
  else if r = "8" then 8
  else if r = "9" then 9
  else if r = "10" then 10
  else if r = "J" then 11
  else if r = "Q" then 12
  else if r = "K" then 13
  else if r = "A" then 14
  else 0

/-- evaluate_preflop of simple_bot.py. The source guards with
`if len(cards) < 2: return "weak"` and only then reads `cards[0]` and
`cards[1]`; the match realizes the same control flow, returning `"weak"`
for lists with fewer than two cards without touching any element. The
conditions are tested in the source's order and the first match returns. -/
def evaluate_preflop (cards : List LV.Card) : String :=
  match cards with
  | c1 :: c2 :: _ =>
    let r1 := RANK_VALUES c1.rank
    let r2 := RANK_VALUES c2.rank
    let high := max r1 r2
    let low := min r1 r2
    let gap := high - low
    if c1.rank = c2.rank ∧ 12 ≤ high then "premium"
    else if high = 14 ∧ low = 13 ∧ c1.suit = c2.suit then "premium"
    else if c1.rank = c2.rank ∧ 10 ≤ high then "good"
    else if high = 14 ∧ 12 ≤ low then "good"
    else if high = 13 ∧ low = 12 ∧ c1.suit = c2.suit then "good"
    else if c1.rank = c2.rank ∧ 7 ≤ high then "playable"
    else if c1.suit = c2.suit ∧ gap ≤ 2 ∧ 8 ≤ high then "playable"
    else if c1.suit = c2.suit ∧ high = 14 then "playable"
    else "weak"
  | _ => "weak"

/-- The float literal `0.3` of decide_action, as the exact rational 3/10. -/
def ratThree10 : ℚ := ⟨3, 10, by decide, by decide⟩

/-- The float literal `0.2` of decide_action, as the exact rational 1/5. -/
def ratOne5 : ℚ := ⟨1, 5, by decide, by decide⟩

/-- The float literal `0.4` of decide_action, as the exact rational 2/5. -/
def ratTwo5 : ℚ := ⟨2, 5, by decide, by decide⟩

/-- The `cards_str` rendering of decide_action:
`" ".join(str(c) for c in state.your_cards)`. -/
def cardsString (cs : List LV.Card) : String :=
  String.intercalate " " (cs.map LV.cardStr)

/-- The `community_str` rendering of decide_action: the joined cards, or
`"none"` when the community list is empty. -/
def communityString (cs : List LV.Card) : String :=
  if cs = [] then "none" else String.intercalate " " (cs.map LV.cardStr)

/-- decide_action of simple_bot.py, returning the `(action, amount, reasoning)`
triple. `r` is the value the path's single `random.random()` call would
draw (each execution path of the source calls `random.random()` at most
once); the draw thresholds `0.3`, `0.2`, `0.4` are the corresponding
exact rationals. Python `//` is `Int.fdiv`. The three stack/pot
conditions `call_amount <= chips * 0.1`, `call_amount <= chips * 0.05`
and `call_amount <= pot * 0.5` are embedded in the equivalent
cross-multiplied integer forms `call_amount * 10 ≤ chips`,
`call_amount * 20 ≤ chips` and `call_amount * 2 ≤ pot` (equivalent over
exact rational arithmetic; the source compares against a binary float,
which differs only on borderline stacks that no theorem below relies on).
The guard mirrors the source's short-circuit
`if not state.your_cards or state.your_cards[0].rank == "?"`: only the
first card's rank is inspected. -/
def decide_action (s : LV.HandState) (r : ℚ) : String × Option Int × String :=
  match s.your_cards with
  | [] => ("check", none, "Waiting for cards")
  | c0 :: rest =>
    if c0.rank = "?" then ("check", none, "Waiting for cards")
    else
      let hand_strength := evaluate_preflop (c0 :: rest)
      let call_amount := s.call_amount
      let pot := s.pot
      let chips := s.your_chips
      let cards_str := cardsString (c0 :: rest)
      let community_str := communityString s.community_cards
      if s.phase = "preflop" then
        if hand_strength = "premium" then
          ("raise", some (min (pot * 3) chips),
            "Premium hand (" ++ cards_str ++ "), raising to build pot")
        else if hand_strength = "good" then
          if call_amount = 0 then
            ("raise", some (min (s.current_bet + Int.fdiv pot 2) chips),
              "Good hand (" ++ cards_str ++ "), raising for value")
          else if call_amount * 10 ≤ chips then
            ("call", none, "Good hand (" ++ cards_str ++ "), calling small raise")
          else
            ("call", none, "Good hand (" ++ cards_str ++ "), calling")
        else if hand_strength = "playable" then
          if call_amount = 0 then
            if r < ratThree10 then
              ("raise", some (s.current_bet + Int.fdiv s.current_bet 2),
                "Playable hand (" ++ cards_str ++ "), mixing in a raise")
            else
              ("check", none, "Playable hand (" ++ cards_str ++ "), checking")
          else if call_amount * 20 ≤ chips then
            ("call", none, "Playable hand (" ++ cards_str ++ "), calling small bet")
          else
            ("fold", none, "Playable hand (" ++ cards_str ++ "), but raise too big")
        else
          if call_amount = 0 then
            if r < ratOne5 then
              ("check", none, "Weak hand (" ++ cards_str ++ "), limping")
            else
              ("check", none, "Weak hand (" ++ cards_str ++ "), checking")
          else
            ("fold", none, "Weak hand (" ++ cards_str ++ "), folding to aggression")
      else
        if call_amount = 0 then
          if r < ratThree10 then
            ("raise", some (min (Int.fdiv pot 2) chips),
              "Betting " ++ toString (min (Int.fdiv pot 2) chips) ++ " with board: " ++ community_str)
          else
            ("check", none, "Checking board: " ++ community_str)
        else if call_amount * 2 ≤ pot then
          if hand_strength = "premium" ∨ hand_strength = "good" ∨ r < ratTwo5 then
            ("call", none, "Calling " ++ toString call_amount ++ " with board: " ++ community_str)
          else
            ("fold", none, "Folding to bet, board: " ++ community_str)
        else
          if hand_strength = "premium" then
            ("call", none, "Calling big bet with strong hand, board: " ++ community_str)
          else
            ("fold", none, "Folding to big bet, board: " ++ community_str)

end Bot

namespace SDK

/-- State of the public quickstart client (public/sdk/lais_vegas.py,
`LAISVegas.__init__`): the source stores exactly `api_key`, `url`,
`agent_id`, `my_seat`, `my_cards`, `community_cards` and `chips` (plus the
socket object and the three callbacks, which carry no game state). Note
that the client state has no phase field of any kind. -/
structure ClientState where
  api_key : String
  url : String
  agent_id : Option String
  my_seat : Option Int
  my_cards : List String
  community_cards : List String
  chips : Int
deriving DecidableEq

/-- Payload of a `hand:start` event as read by the handler: the handler
reads only `data.get('yourCards', [])`, so the payload is its `yourCards`
list (a missing key is the empty list). -/
structure HandStartData where
  yourCards : List String
deriving DecidableEq

/-- Payload of a `phase` event. Per the spec the event carries the new phase
label and the community cards; the source handler reads only
`data.get('communityCards', [])` and ignores the label. -/
structure PhaseData where
  label : String
  communityCards : List String
deriving DecidableEq

/-- The `hand:start` handler (public/sdk/lais_vegas.py lines 49-54): sets
`my_cards` from the payload and resets `community_cards` to the empty
list. No other state field is touched; in particular the handler sets no
phase, because `ClientState` stores none. -/
def on_hand_start (s : ClientState) (d : HandStartData) : ClientState :=
  { s with my_cards := d.yourCards, community_cards := [] }

/-- The `phase` handler (public/sdk/lais_vegas.py lines 56-58): replaces
`community_cards` with the event's list. The phase label of the event is
ignored. -/
def on_phase (s : ClientState) (d : PhaseData) : ClientState :=
  { s with community_cards := d.communityCards }

/-- Phase observable of the quickstart client. The source `ClientState` has
no phase field (see `ClientState`), so there is never a phase to read: the
observable is `none` for every state. This definition records the absence
of the field in the source, it does not model behavior that exists. -/
def phaseOf (_ : ClientState) : Option String := none

end SDK

namespace LV

/-- Modulus of 32-bit words, used throughout the SHA-256 embedding. -/
def m32 : Nat := 4294967296

/-- Right rotation of a 32-bit word. -/
def rotr (n x : Nat) : Nat := ((x >>> n) ||| (x <<< (32 - n))) % m32

/-- SHA-256 small sigma 0. -/
def smallSigma0 (x : Nat) : Nat := rotr 7 x ^^^ rotr 18 x ^^^ (x >>> 3)

/-- SHA-256 small sigma 1. -/
def smallSigma1 (x : Nat) : Nat := rotr 17 x ^^^ rotr 19 x ^^^ (x >>> 10)

/-- SHA-256 big sigma 0. -/
def bigSigma0 (x : Nat) : Nat := rotr 2 x ^^^ rotr 13 x ^^^ rotr 22 x

/-- SHA-256 big sigma 1. -/
def bigSigma1 (x : Nat) : Nat := rotr 6 x ^^^ rotr 11 x ^^^ rotr 25 x

/-- SHA-256 choice function (the complement is taken within 32 bits). -/
def chFn (e f g : Nat) : Nat := (e &&& f) ^^^ ((e ^^^ 4294967295) &&& g)

/-- SHA-256 majority function. -/
def majFn (a b c : Nat) : Nat := (a &&& b) ^^^ (a &&& c) ^^^ (b &&& c)

/-- The 64 SHA-256 round constants (FIPS 180-4, written in decimal). -/
def Kconst : List Nat :=
  [1116352408, 1899447441, 3049323471, 3921009573, 961987163, 1508970993,
   2453635748, 2870763221, 3624381080, 310598401, 607225278, 1426881987,
   1925078388, 2162078206, 2614888103, 3248222580, 3835390401, 4022224774,
   264347078, 604807628, 770255983, 1249150122, 1555081692, 1996064986,
   2554220882, 2821834349, 2952996808, 3210313671, 3336571891, 3584528711,
   113926993, 338241895, 666307205, 773529912, 1294757372, 1396182291,
   1695183700, 1986661051, 2177026350, 2456956037, 2730485921, 2820302411,
   3259730800, 3345764771, 3516065817, 3600352804, 4094571909, 275423344,
   430227734, 506948616, 659060556, 883997877, 958139571, 1322822218,
   1537002063, 1747873779, 1955562222, 2024104815, 2227730452, 2361852424,
   2428436474, 2756734187, 3204031479, 3329325298]

/-- Working state of the SHA-256 compression function (eight 32-bit words). -/
structure Hash8 where
  a : Nat
  b : Nat
  c : Nat
  d : Nat
  e : Nat
  f : Nat
  g : Nat
  h : Nat
deriving DecidableEq

/-- SHA-256 initial hash value (FIPS 180-4, written in decimal). -/
def initH : Hash8 :=
  ⟨1779033703, 3144134277, 1013904242, 2773480762, 1359893119, 2600822924, 528734635, 1541459225⟩

/-- One SHA-256 compression round. -/
def compressRound (st : Hash8) (kt wt : Nat) : Hash8 :=
  let t1 := (st.h + bigSigma1 st.e + chFn st.e st.f st.g + kt + wt) % m32
  let t2 := (bigSigma0 st.a + majFn st.a st.b st.c) % m32
  ⟨(t1 + t2) % m32, st.a, st.b, st.c, (st.d + t1) % m32, st.e, st.f, st.g⟩

/-- Iterate a function a fixed number of times. -/
def iterN {α : Type} (f : α → α) : Nat → α → α
  | 0, x => x
  | n + 1, x => iterN f n (f x)

/-- One message-schedule extension step: appends the next word to the
schedule built so far. -/
def wStep (w : List Nat) : List Nat :=
  let n := w.length
  w ++ [(smallSigma1 (w.getD (n - 2) 0) + w.getD (n - 7) 0
        + smallSigma0 (w.getD (n - 15) 0) + w.getD (n - 16) 0) % m32]

/-- Extend the 16 chunk words to the 64-word message schedule. -/
def buildW (w16 : List Nat) : List Nat := iterN wStep 48 w16

/-- Run the 64 compression rounds over the schedule. -/
def compress (st : Hash8) (w : List Nat) : Hash8 :=
  List.foldl (fun acc p => compressRound acc p.1 p.2) st (Kconst.zip w)

/-- Wordwise modular addition of two hash states. -/
def addH (x y : Hash8) : Hash8 :=
  ⟨(x.a + y.a) % m32, (x.b + y.b) % m32, (x.c + y.c) % m32, (x.d + y.d) % m32,
   (x.e + y.e) % m32, (x.f + y.f) % m32, (x.g + y.g) % m32, (x.h + y.h) % m32⟩

/-- Big-endian 32-bit words from a list of bytes. -/
def bytesToWords : List Nat → List Nat
  | b0 :: b1 :: b2 :: b3 :: rest => (((b0 * 256 + b1) * 256 + b2) * 256 + b3) :: bytesToWords rest
  | _ => []

/-- Process one 64-byte chunk. -/
def processChunk (st : Hash8) (chunk : List Nat) : Hash8 :=
  addH st (compress st (buildW (bytesToWords chunk)))

/-- Eight big-endian bytes of a 64-bit length value. -/
def be8 (n : Nat) : List Nat :=
  [(n >>> 56) % 256, (n >>> 48) % 256, (n >>> 40) % 256, (n >>> 32) % 256,
   (n >>> 24) % 256, (n >>> 16) % 256, (n >>> 8) % 256, n % 256]

/-- SHA-256 padding: append 0x80, zeros to 56 mod 64, then the bit length. -/
def padBytes (msg : List Nat) : List Nat :=
  msg ++ 128 :: List.replicate ((119 - msg.length % 64) % 64) 0 ++ be8 (8 * msg.length)

/-- Split a byte list into 64-byte chunks; the fuel (the list's length)
bounds the number of chunks, which is at most the length. -/
def chunksGo : Nat → List Nat → List (List Nat)
  | 0, _ => []
  | _, [] => []
  | fuel + 1, l => l.take 64 :: chunksGo fuel (l.drop 64)

/-- Split a byte list into 64-byte chunks. -/
def chunks64 (l : List Nat) : List (List Nat) := chunksGo l.length l

/-- UTF-8 encoding of one code point (Python `str.encode()` encodes UTF-8). -/
def utf8Bytes (c : Char) : List Nat :=
  let n := c.toNat
  if n < 128 then [n]
  else if n < 2048 then [192 + n / 64, 128 + n % 64]
  else if n < 65536 then [224 + n / 4096, 128 + (n / 64) % 64, 128 + n % 64]
  else [240 + n / 262144, 128 + (n / 4096) % 64, 128 + (n / 64) % 64, 128 + n % 64]

/-- UTF-8 bytes of a string. -/
def strBytes (s : String) : List Nat := (s.data.map utf8Bytes).flatten

/-- Final SHA-256 hash state of a string, as eight 32-bit words. -/
def sha256words (s : String) : List Nat :=
  let final := List.foldl processChunk initH (chunks64 (padBytes (strBytes s)))
  [final.a, final.b, final.c, final.d, final.e, final.f, final.g, final.h]

/-- Hex digit characters. -/
def hexChar (n : Nat) : Char := List.getD ("0123456789abcdef".data) n '0'

/-- Lowercase hex rendering of one 32-bit word (eight digits). -/
def wordHex (w : Nat) : String :=
  String.mk ([7, 6, 5, 4, 3, 2, 1, 0].map (fun i => hexChar ((w >>> (4 * i)) % 16)))

/-- Lowercase hex digest of a string, as `hashlib.sha256(x).hexdigest()`
renders it. -/
def sha256hex (s : String) : String := String.join ((sha256words s).map wordHex)

/-- Python `str.startswith`: the candidate is a prefix of the string's
code-point sequence. -/
def pyStartswith (s pre : String) : Bool := pre.data.isPrefixOf s.data

/-- The acceptance test of one `solve_pow` iteration (lais_vegas.py lines
153-156): the hex digest of the seed concatenated with the decimal nonce
starts with the target. -/
def powCheck (seed tp : String) (nonce : Nat) : Bool :=
  pyStartswith (sha256hex (seed ++ toString nonce)) tp

/-- The `while True` search loop of `solve_pow`, with an explicit fuel bound
standing in for the source's unbounded iteration: starting from `nonce`,
return the decimal string of the first accepted nonce, or `none` if the
fuel runs out first. -/
def powLoop (seed tp : String) : Nat → Nat → Option String
  | 0, _ => none
  | fuel + 1, nonce =>
    if powCheck seed tp nonce then some (toString nonce) else powLoop seed tp fuel (nonce + 1)

/-- solve_pow of examples/python/lais_vegas.py (lines 148-165): brute-force
search from nonce 0 upward. The source loop is unbounded; `fuel` bounds
the embedding, and the theorems below supply enough fuel whenever a
satisfying nonce exists. -/
def solve_pow (seed tp : String) (fuel : Nat) : Option String := powLoop seed tp fuel 0

/-- Outcome of invoking one event handler inside `_trigger`'s `try/except`:
the handler either returns normally (`none`) or its exception is caught
and converted to the logged message (`some e`). Fallible user callbacks
are embedded as `Except`-valued functions. -/
def runHandler {α : Type} (f : α → Except String Unit) (d : α) : Option String :=
  match f d with
  | Except.ok _ => none
  | Except.error e => some e

/-- The `_trigger` dispatch loop of examples/python/lais_vegas.py (lines
460-467): iterate over the registered handlers in order, invoking each
inside `try/except`. The returned list is the log trace, one entry per
handler in registration order; the function's plain (non-`Except`) result
type records that no handler exception escapes the dispatch. -/
def trigger {α : Type} : List (α → Except String Unit) → α → List (Option String)
  | [], _ => []
  | f :: rest, d => runHandler f d :: trigger rest d

end LV

/-- Tier classification written from the spec's words (section 4.2), for
comparison with `Bot.evaluate_preflop`: 1. Premium — a pair ranked Queen
or higher, or Ace+King of the same suit; 2. Good — a pair ranked Ten or
higher (below Queen by precedence), or Ace with Queen/King of any suit;
3. Playable — a pair ranked 7 or higher, or same-suit cards with rank gap
at most 2 and the higher card at least 8, or an Ace with any same-suit
kicker; 4. Weak — everything else. Tested in the listed order, returning
at the first match. -/
def spec_evaluate (c1 c2 : LV.Card) : String :=
  let r1 := Bot.RANK_VALUES c1.rank
  let r2 := Bot.RANK_VALUES c2.rank
  let high := max r1 r2
  let low := min r1 r2
  if (c1.rank = c2.rank ∧ 12 ≤ high) ∨ (high = 14 ∧ low = 13 ∧ c1.suit = c2.suit) then "premium"
  else if (c1.rank = c2.rank ∧ 10 ≤ high) ∨ (high = 14 ∧ (low = 12 ∨ low = 13)) then "good"
  else if (c1.rank = c2.rank ∧ 7 ≤ high) ∨ (c1.suit = c2.suit ∧ high - low ≤ 2 ∧ 8 ≤ high)
          ∨ (c1.suit = c2.suit ∧ high = 14) then "playable"
  else "weak"

/-- The spec tiers of `spec_evaluate` amended by the one rule the source
has and the spec text omits: the Good tier additionally contains
King-Queen suited (the source tests it right after the Ace-with-Queen/King
rule, so King-Queen suited is Good, not Playable). -/
def spec_evaluate_kqs (c1 c2 : LV.Card) : String :=
  let r1 := Bot.RANK_VALUES c1.rank
  let r2 := Bot.RANK_VALUES c2.rank
  let high := max r1 r2
  let low := min r1 r2
  if (c1.rank = c2.rank ∧ 12 ≤ high) ∨ (high = 14 ∧ low = 13 ∧ c1.suit = c2.suit) then "premium"
  else if (c1.rank = c2.rank ∧ 10 ≤ high) ∨ (high = 14 ∧ (low = 12 ∨ low = 13))
          ∨ (high = 13 ∧ low = 12 ∧ c1.suit = c2.suit) then "good"
  else if (c1.rank = c2.rank ∧ 7 ≤ high) ∨ (c1.suit = c2.suit ∧ high - low ≤ 2 ∧ 8 ≤ high)
          ∨ (c1.suit = c2.suit ∧ high = 14) then "playable"
  else "weak"

/-- The thirteen rank labels of the data model. -/
def ranksAll : List String := ["2", "3", "4", "5", "6", "7", "8", "9", "10", "J", "Q", "K", "A"]

/-- The four suit labels of the data model. -/
def suitsAll : List String := ["hearts", "diamonds", "clubs", "spades"]

/-- All 52 known (non-hidden) cards. -/
def allKnownCards : List LV.Card :=
  (suitsAll.map (fun su => ranksAll.map (fun rk => (⟨su, rk⟩ : LV.Card)))).flatten

/-- Example scenario 1 of the spec: hole cards A-spades K-spades, preflop,
pot 100, chips 900, no outstanding bet. -/
def exPremiumState : LV.HandState :=
  ⟨"preflop", 100, [], [⟨"spades", "A"⟩, ⟨"spades", "K"⟩], 0, 0, 900, true, 2, []⟩

/-- A preflop state with a Playable hand (9-8 suited), no amount to call
(the bets are level at 1000), and only 10 chips behind: the input on which
the Playable-tier mixing raise exceeds the stack. -/
def exMixRaiseState : LV.HandState :=
  ⟨"preflop", 2000, [], [⟨"hearts", "9"⟩, ⟨"hearts", "8"⟩], 1000, 1000, 10, true, 2, []⟩

/-- A preflop state whose second hole card is the hidden card while the
first is known, with 50 to call. -/
def exUnknownSecondState : LV.HandState :=
  ⟨"preflop", 100, [], [⟨"spades", "A"⟩, ⟨"?", "?"⟩], 0, 50, 1000, true, 2, []⟩

/-- A state with no hole cards dealt yet. -/
def exNoCardsState : LV.HandState :=
  ⟨"waiting", 0, [], [], 0, 0, 0, false, 0, []⟩

/-- A concrete prior state of the quickstart client, mid-hand. -/
def exClientState : SDK.ClientState :=
  ⟨"casino_key", "https://lais-vegas.com", some "agent-1", some 3,
   ["2h", "3d"], ["As", "Kd", "Qc"], 500⟩

/-- A concrete `hand:start` payload. -/
def exHandStart : SDK.HandStartData := ⟨["Jc", "Jd"]⟩

/-- An event handler that returns normally. -/
def okHandler : Nat → Except String Unit := fun _ => Except.ok ()

/-- An event handler that raises. -/
def badHandler : Nat → Except String Unit := fun _ => Except.error "boom"

/-- Helper: a hand whose first card has the hidden rank is never classified
premium by `Bot.evaluate_preflop` (its rank value is 0, so neither premium
rule can fire). -/
theorem eval_head_unknown (c1 c2 : LV.Card) (rest : List LV.Card) (hq : c1.rank = "?") :
    Bot.evaluate_preflop (c1 :: c2 :: rest) ≠ "premium" := by
  intro h
  simp only [Bot.evaluate_preflop] at h
  split_ifs at h with h1 h2
  · obtain ⟨hp, hh⟩ := h1
    rw [hq] at hp hh
    rw [← hp] at hh
    simp [Bot.RANK_VALUES] at hh
  · obtain ⟨hh, hl, hsu⟩ := h2
    rw [hq] at hl
    simp [Bot.RANK_VALUES] at hl
  all_goals exact absurd h (by decide)

/-- Helper: `powLoop` run from `start` with enough fuel returns the decimal
string of the least accepted nonce at or above `start`. -/
theorem powLoop_reaches (seed tp : String) :
    ∀ (fuel start n : Nat), start ≤ n → LV.powCheck seed tp n = true →
      (∀ m, start ≤ m → m < n → LV.powCheck seed tp m = false) →
      n - start < fuel → LV.powLoop seed tp fuel start = some (toString n) := by
  intro fuel
  induction fuel with
  | zero => intro start n _ _ _ hf; omega
  | succ k ih =>
    intro start n hsn hn hmin hf
    rcases Nat.lt_or_ge start n with hlt | hge
    · have hfalse : LV.powCheck seed tp start = false := hmin start le_rfl hlt
      rw [LV.powLoop, hfalse]
      simp only [Bool.false_eq_true, if_false]
      exact ih (start + 1) n hlt hn (fun m hm1 hm2 => hmin m (by omega) hm2) (by omega)
    · have heq : start = n := by omega
      subst heq
      rw [LV.powLoop, hn]
      simp

/-- Claim C1 (failing-input evaluation): on a preflop state with the
Playable hand 9♥ 8♥, level bets of 1000 (so nothing to call) and only 10
chips behind, a mixing draw below 0.3 makes `decide_action` return a raise
to 1500 — more chips than the 10 the state holds. The source's
Playable-tier mixing raise `current_bet + current_bet // 2` is the one
raise site not clamped by `min(..., chips)`. -/
theorem c1_mix_raise_exceeds_chips :
    Bot.decide_action exMixRaiseState 0
      = ("raise", some 1500, "Playable hand (9♥ 8♥), mixing in a raise")
  ∧ exMixRaiseState.your_chips < 1500 := by decide

/-- Claim C2 (counterexample): King-Queen suited is classified `"good"` by
the source's `evaluate_preflop`, while the spec's four rules classify it
`"playable"` — so `evaluate_preflop` does not return exactly the spec's
tiers, and King-Queen suited is not Playable as the claim states. -/
theorem c2_kqs_counterexample :
    Bot.evaluate_preflop [⟨"spades", "K"⟩, ⟨"spades", "Q"⟩] = "good"
  ∧ spec_evaluate ⟨"spades", "K"⟩ ⟨"spades", "Q"⟩ = "playable" := by decide

set_option maxHeartbeats 1000000 in
/-- Claim C2 (amended): for every pair of known cards, `evaluate_preflop`
returns exactly the spec's tiers amended by one rule: King-Queen suited is
Good (tested after the Ace-with-Queen/King rule), not Playable. Proved by
exhaustive evaluation over all 52 × 52 ordered pairs of known cards. -/
theorem c2_eval_matches_spec_kqs :
    ∀ c1 ∈ allKnownCards, ∀ c2 ∈ allKnownCards,
      Bot.evaluate_preflop [c1, c2] = spec_evaluate_kqs c1 c2 := by decide

/-- Witness for C2: the amended agreement evaluated at King-Queen suited. -/
theorem c2_eval_matches_spec_kqs_witness :
    Bot.evaluate_preflop [⟨"spades", "K"⟩, ⟨"spades", "Q"⟩]
      = spec_evaluate_kqs ⟨"spades", "K"⟩ ⟨"spades", "Q"⟩ :=
  c2_eval_matches_spec_kqs ⟨"spades", "K"⟩ (by decide) ⟨"spades", "Q"⟩ (by decide)

/-- Claim C3 (counterexample): a state whose second hole card is the hidden
`Card("?", "?")` while the first is known (A♠ here, with 50 to call) does
not make `decide_action` check while waiting for cards — the source's
guard inspects only `your_cards[0].rank`, so this state is evaluated as a
weak hand and folded. -/
theorem c3_unknown_second_counterexample :
    (LV.Card.mk "?" "?") ∈ exUnknownSecondState.your_cards
  ∧ (Bot.decide_action exUnknownSecondState 0).1 = "fold" := by decide

/-- Claim C3 (amended): whenever `your_cards` is empty or its FIRST card has
the hidden rank, `decide_action` returns Check with the waiting-for-cards
rationale, regardless of phase, pot, bets, chips, or the random draw. -/
theorem c3_waiting_guard (s : LV.HandState) (r : ℚ)
    (h : s.your_cards = [] ∨ ∃ c cs, s.your_cards = c :: cs ∧ c.rank = "?") :
    Bot.decide_action s r = ("check", none, "Waiting for cards") := by
  rcases h with h | ⟨c, cs, hc, hr⟩
  · unfold Bot.decide_action
    rw [h]
  · unfold Bot.decide_action
    rw [hc]
    simp [hr]

/-- Witness for C3: the guard applied to a concrete state with no cards. -/
theorem c3_waiting_guard_witness :
    Bot.decide_action exNoCardsState 0 = ("check", none, "Waiting for cards") :=
  c3_waiting_guard exNoCardsState 0 (Or.inl rfl)

/-- Claim C4 (counterexample): processing a `hand:start` event in the
quickstart client resets `community_cards` and sets `my_cards` from the
payload, but the resulting state's phase is not preflop — the client state
stores no phase field at all (see `SDK.ClientState` and `SDK.phaseOf`), so
no phase is ever set. -/
theorem c4_hand_start_no_phase :
    (SDK.on_hand_start exClientState exHandStart).community_cards = []
  ∧ (SDK.on_hand_start exClientState exHandStart).my_cards = exHandStart.yourCards
  ∧ SDK.phaseOf (SDK.on_hand_start exClientState exHandStart) ≠ some "preflop" :=
  ⟨rfl, rfl, by decide⟩

/-- Claim C4 (amended): for every prior state, processing a `hand_start`
event yields a state in which `community_cards` is the empty list and the
client's cards equal the cards carried by the event payload; the client
state tracks no phase field, so no phase is set. -/
theorem c4_hand_start_resets (s : SDK.ClientState) (d : SDK.HandStartData) :
    (SDK.on_hand_start s d).community_cards = []
  ∧ (SDK.on_hand_start s d).my_cards = d.yourCards :=
  ⟨rfl, rfl⟩

/-- Claim C5: the `phase` handler replaces `community_cards` with the
event's list rather than appending, so processing the same phase event
twice in immediate succession yields the same state as processing it
once. -/
theorem c5_phase_idempotent (s : SDK.ClientState) (d : SDK.PhaseData) :
    SDK.on_phase (SDK.on_phase s d) d = SDK.on_phase s d := rfl

/-- Claim C6: for every `HandState`, the `call_amount` property equals
`max 0 (current_bet - your_bet)`; equivalently it is `current_bet -
your_bet` when `current_bet ≥ your_bet` and `0` otherwise. It is a
function of the two fields (a computed property), never a stored field. -/
theorem c6_call_amount_formula (s : LV.HandState) :
    s.call_amount = max 0 (s.current_bet - s.your_bet)
  ∧ s.call_amount = (if s.your_bet ≤ s.current_bet then s.current_bet - s.your_bet else 0) := by
  refine ⟨rfl, ?_⟩
  simp only [LV.HandState.call_amount]
  split <;> omega

/-- Claim C7: on every preflop state whose hole cards evaluate to tier
premium, `decide_action` returns a raise to exactly
`min (pot * 3) your_chips`, for every random draw. -/
theorem c7_premium_raise (s : LV.HandState) (r : ℚ)
    (hp : s.phase = "preflop") (hs : Bot.evaluate_preflop s.your_cards = "premium") :
    Bot.decide_action s r
      = ("raise", some (min (s.pot * 3) s.your_chips),
          "Premium hand (" ++ Bot.cardsString s.your_cards ++ "), raising to build pot") := by
  rcases hc : s.your_cards with _ | ⟨c0, tl⟩
  · rw [hc] at hs
    simp [Bot.evaluate_preflop] at hs
  · rcases tl with _ | ⟨c1, tl2⟩
    · rw [hc] at hs
      simp [Bot.evaluate_preflop] at hs
    · have hq : ¬ c0.rank = "?" := fun hqq => eval_head_unknown c0 c1 tl2 hqq (hc ▸ hs)
      rw [hc] at hs
      unfold Bot.decide_action
      rw [hc]
      simp only [if_neg hq, hs, hp]
      simp

/-- Witness for C7: the spec's example scenario 1 — hole cards A♠ K♠, pot
100, chips 900, preflop — yields a raise to 300. -/
theorem c7_premium_raise_witness :
    Bot.decide_action exPremiumState 0
      = ("raise", some 300, "Premium hand (A♠ K♠), raising to build pot") :=
  (c7_premium_raise exPremiumState 0 rfl (by decide)).trans (by decide)

/-- Claim C8: whenever some nonce satisfies the proof-of-work test,
`solve_pow` run with enough fuel (the source loop is unbounded) returns
the decimal string of the smallest satisfying nonce; and for the empty
target the very first nonce is accepted, so the result is `"0"` for every
seed. -/
theorem c8_solve_pow_least :
    (∀ (seed tp : String) (n fuel : Nat),
        LV.powCheck seed tp n = true →
        (∀ m, m < n → LV.powCheck seed tp m = false) →
        n < fuel →
        LV.solve_pow seed tp fuel = some (toString n))
  ∧ (∀ (seed : String) (fuel : Nat), 0 < fuel → LV.solve_pow seed "" fuel = some "0") := by
  constructor
  · intro seed tp n fuel hn hmin hf
    exact powLoop_reaches seed tp fuel 0 n (Nat.zero_le n) hn
      (fun m _ hm => hmin m hm) (by omega)
  · intro seed fuel hf
    have h0 : LV.powCheck seed "" 0 = true := rfl
    rcases fuel with _ | k
    · omega
    · rw [LV.solve_pow, LV.powLoop, h0]
      rfl

/-- Witness for C8: with the empty target, one unit of fuel already returns
nonce "0". -/
theorem c8_solve_pow_least_witness : LV.solve_pow "testseed" "" 1 = some "0" :=
  c8_solve_pow_least.2 "testseed" 1 (by decide)

/-- Claim C9: `_trigger` invokes every registered handler in order inside
`try/except`; a handler that raises contributes its logged error to the
trace and every later-registered handler is still invoked exactly as it
would be otherwise. The plain (non-`Except`) result type of `trigger`
records that the exception never propagates out of the dispatch. -/
theorem c9_handler_isolation :
    (∀ (α : Type) (pre post : List (α → Except String Unit))
        (f : α → Except String Unit) (d : α) (e : String),
        f d = Except.error e →
        LV.trigger (pre ++ f :: post) d
          = LV.trigger pre d ++ some e :: LV.trigger post d)
  ∧ (∀ (α : Type) (hs : List (α → Except String Unit)) (d : α),
        LV.trigger hs d = hs.map (fun f => LV.runHandler f d)) := by
  constructor
  · intro α pre post f d e he
    induction pre with
    | nil => simp [LV.trigger, LV.runHandler, he]
    | cons g gs ih => simp [LV.trigger, ih]
  · intro α hs d
    induction hs with
    | nil => rfl
    | cons g gs ih => simp [LV.trigger, ih]

/-- Witness for C9: with a raising handler registered between two normal
ones, the dispatch logs the error and still invokes the later handler. -/
theorem c9_handler_isolation_witness :
    LV.trigger [okHandler, badHandler, okHandler] 0 = [none, some "boom", none] := by
  have hx := c9_handler_isolation.1 Nat [okHandler] [okHandler] badHandler 0 "boom" rfl
  simpa [LV.trigger, LV.runHandler, okHandler] using hx

/-- Claim C10: `evaluate_preflop` is total over lists of any length, and
every input with fewer than two cards is classified `"weak"` without any
element being read (the embedding's short-list branch inspects no card),
so no out-of-bounds access is reachable. -/
theorem c10_eval_short_weak (cards : List LV.Card) (h : cards.length < 2) :
    Bot.evaluate_preflop cards = "weak" := by
  rcases cards with _ | ⟨c0, tl⟩
  · rfl
  · rcases tl with _ | ⟨c1, tl2⟩
    · rfl
    · simp only [List.length_cons] at h
      omega

/-- Witness for C10: the empty list and a one-card list both give weak. -/
theorem c10_eval_short_weak_witness :
    ([] : List LV.Card).length < 2 ∧ Bot.evaluate_preflop [] = "weak"
  ∧ [(⟨"spades", "A"⟩ : LV.Card)].length < 2
  ∧ Bot.evaluate_preflop [⟨"spades", "A"⟩] = "weak" :=
  ⟨by decide, c10_eval_short_weak [] (by decide), by decide,
   c10_eval_short_weak [⟨"spades", "A"⟩] (by decide)⟩

end LaisVegas


